import Mathlib

/-!
Verification development for the MAGENTA metadata-fetch scripts
(`scripts/01_magenta_fetch_mangrove.py`): geographic coordinate
extraction (`_parse_ns_ew`, `_extract_lat_lon_from_text`), validation
(`_valid_lat_lon`), enrichment and filtering (`fill_and_filter_geo`,
`enrich_coords_from_ena_by_runs`, `enrich_coords_from_ena_by_samples`)
and the retry wrapper (`run_cmd`).

Python floats are modelled as exact rationals; a dataframe cell that can
be missing (NaN / None), a non-numeric string, or an infinity is
modelled by the inductive type `Cand`.
-/

namespace Magenta

/-- The hemisphere character class of the regex, `[NnSsEeWw]`. -/
def isHemi (c : Char) : Bool :=
  c = 'N' || c = 'n' || c = 'S' || c = 's' || c = 'E' || c = 'e' || c = 'W' || c = 'w'

/-- Numeric value of an ASCII digit. -/
def digitVal (c : Char) : ℕ := c.toNat - '0'.toNat

/-- Value denoted by a decimal literal: optional minus sign, integer part,
fraction numerator and fraction denominator (a power of ten). -/
def mkVal (neg : Bool) (ip fn fd : ℕ) : ℚ :=
  (if neg then -1 else 1) * ((ip : ℚ) + (fn : ℚ) / (fd : ℚ))

/-- State of the left-to-right scanner implementing
`re.findall` for the pattern `([+-]?\d+(?:\.\d+)?)([NnSsEeWw]?)`
(and, with hemisphere letters ignored, for `([+-]?\d+(?:\.\d+)?)`).
`ip` is the integer part read so far, `fn`/`fd` the fraction read so far. -/
inductive ScanState where
  | idle : ScanState
  | sgn (neg : Bool) : ScanState
  | intPart (neg : Bool) (ip : ℕ) : ScanState
  | dotPart (neg : Bool) (ip : ℕ) : ScanState
  | fracPart (neg : Bool) (ip fn fd : ℕ) : ScanState
  deriving DecidableEq, Repr

open ScanState

/-- Transition taken when no token is in progress: a digit or a sign can
begin a token, anything else is skipped (the regex engine advances). -/
def idleStep (c : Char) : ScanState :=
  if c.isDigit then intPart false (digitVal c)
  else if c = '+' then sgn false
  else if c = '-' then sgn true
  else idle

/-- One scanner step for the hemisphere-aware pattern
`([+-]?\d+(?:\.\d+)?)([NnSsEeWw]?)`: emitted tokens (value and optional
hemisphere letter) and the next state.  A hemisphere letter is consumed
only when it immediately follows the numeric part; a dangling `.` is
not part of the token (the fraction group needs a digit after the dot). -/
def step : ScanState → Char → List (ℚ × Option Char) × ScanState
  | idle, c => ([], idleStep c)
  | sgn neg, c =>
      if c.isDigit then ([], intPart neg (digitVal c))
      else ([], idleStep c)
  | intPart neg ip, c =>
      if c.isDigit then ([], intPart neg (10 * ip + digitVal c))
      else if c = '.' then ([], dotPart neg ip)
      else if isHemi c then ([(mkVal neg ip 0 1, some c)], idle)
      else ([(mkVal neg ip 0 1, none)], idleStep c)
  | dotPart neg ip, c =>
      if c.isDigit then ([], fracPart neg ip (digitVal c) 10)
      else ([(mkVal neg ip 0 1, none)], idleStep c)
  | fracPart neg ip fn fd, c =>
      if c.isDigit then ([], fracPart neg ip (10 * fn + digitVal c) (10 * fd))
      else if isHemi c then ([(mkVal neg ip fn fd, some c)], idle)
      else ([(mkVal neg ip fn fd, none)], idleStep c)

/-- Token emitted at end of input for each scanner state. -/
def flush : ScanState → List (ℚ × Option Char)
  | idle => []
  | sgn _ => []
  | intPart neg ip => [(mkVal neg ip 0 1, none)]
  | dotPart neg ip => [(mkVal neg ip 0 1, none)]
  | fracPart neg ip fn fd => [(mkVal neg ip fn fd, none)]

/-- Run the hemisphere-aware scanner from a state over a character list. -/
def scanFrom : ScanState → List Char → List (ℚ × Option Char)
  | st, [] => flush st
  | st, c :: t => (step st c).1 ++ scanFrom (step st c).2 t

/-- `re.findall` of `([+-]?\d+(?:\.\d+)?)([NnSsEeWw]?)` on a character
list, as (numeric value, optional hemisphere letter) pairs. -/
def findallHemi (l : List Char) : List (ℚ × Option Char) := scanFrom idle l

/-- One scanner step for the plain pattern `([+-]?\d+(?:\.\d+)?)`:
identical transitions, but a hemisphere letter is an ordinary
non-matching character. -/
def stepP : ScanState → Char → List ℚ × ScanState
  | idle, c => ([], idleStep c)
  | sgn neg, c =>
      if c.isDigit then ([], intPart neg (digitVal c))
      else ([], idleStep c)
  | intPart neg ip, c =>
      if c.isDigit then ([], intPart neg (10 * ip + digitVal c))
      else if c = '.' then ([], dotPart neg ip)
      else ([mkVal neg ip 0 1], idleStep c)
  | dotPart neg ip, c =>
      if c.isDigit then ([], fracPart neg ip (digitVal c) 10)
      else ([mkVal neg ip 0 1], idleStep c)
  | fracPart neg ip fn fd, c =>
      if c.isDigit then ([], fracPart neg ip (10 * fn + digitVal c) (10 * fd))
      else ([mkVal neg ip fn fd], idleStep c)

/-- End-of-input token for the plain scanner. -/
def flushP : ScanState → List ℚ
  | idle => []
  | sgn _ => []
  | intPart neg ip => [mkVal neg ip 0 1]
  | dotPart neg ip => [mkVal neg ip 0 1]
  | fracPart neg ip fn fd => [mkVal neg ip fn fd]

/-- Run the plain scanner from a state over a character list. -/
def scanPFrom : ScanState → List Char → List ℚ
  | st, [] => flushP st
  | st, c :: t => (stepP st c).1 ++ scanPFrom (stepP st c).2 t

/-- `re.findall` of `([+-]?\d+(?:\.\d+)?)` on a character list. -/
def findallPlain (l : List Char) : List ℚ := scanPFrom idle l

/-- Python `str.strip()`: drop leading and trailing whitespace. -/
def pyStrip (l : List Char) : List Char :=
  ((l.dropWhile Char.isWhitespace).reverse.dropWhile Char.isWhitespace).reverse

/-- Sign adjustment of `_parse_ns_ew`: `S`/`W` force the magnitude
negative, `N`/`E` force it positive, no letter leaves the value as-is. -/
def applyHemi : ℚ × Option Char → ℚ
  | (x, none) => x
  | (x, some h) =>
      if h = 'S' || h = 's' then -|x|
      else if h = 'N' || h = 'n' then |x|
      else if h = 'W' || h = 'w' then -|x|
      else if h = 'E' || h = 'e' then |x|
      else x

/-- `_parse_ns_ew`: on a string input, strip it, find the
hemisphere-annotated numeric tokens, apply the sign convention, and
return the first two values when at least two tokens were found.
A non-string input (`none`) and fewer than two tokens give `none`,
modelling the Python return `(None, None)`. -/
def _parse_ns_ew (val : Option String) : Option (ℚ × ℚ) :=
  match val with
  | none => none
  | some s =>
      match (findallHemi (pyStrip s.data)).map applyHemi with
      | a :: b :: _ => some (a, b)
      | _ => none

/-- `_extract_lat_lon_from_text`: try `_parse_ns_ew`; if it found no
pair, fall back to the plain two-number scan on the raw string, with no
sign adjustment.  `none` models the Python return `(nan, nan)`. -/
def _extract_lat_lon_from_text (s : Option String) : Option (ℚ × ℚ) :=
  match s with
  | none => none
  | some str =>
      match _parse_ns_ew (some str) with
      | some p => some p
      | none =>
          match findallPlain str.data with
          | a :: b :: _ => some (a, b)
          | _ => none

/-- A dataframe cell holding a coordinate candidate: missing
(NaN / None, i.e. `pd.isna` is true), a non-numeric value on which
`float()` raises, a value converting to an infinite float, or a value
converting to a finite float (held exactly as a rational). -/
inductive Cand where
  | absent : Cand
  | nonNum : Cand
  | pinf : Cand
  | ninf : Cand
  | num (q : ℚ) : Cand
  deriving DecidableEq, Repr

/-- `pd.isna` on a `Cand`. -/
def isna : Cand → Bool
  | .absent => true
  | _ => false

/-- The value of a Python float: finite, `inf`, or `-inf`
(NaN already classified as `Cand.absent`). -/
inductive FloatVal where
  | fin (q : ℚ) : FloatVal
  | pinf : FloatVal
  | ninf : FloatVal
  deriving DecidableEq, Repr

/-- `float(x)`: `none` models a raised exception. -/
def asFloat : Cand → Option FloatVal
  | .absent => none
  | .nonNum => none
  | .pinf => some .pinf
  | .ninf => some .ninf
  | .num q => some (.fin q)

/-- `np.isfinite`. -/
def isFinite : FloatVal → Bool
  | .fin _ => true
  | _ => false

/-- The chained comparison `-90.0 <= lat <= 90.0` on a float value. -/
def latInRange : FloatVal → Bool
  | .fin q => decide (-90 ≤ q) && decide (q ≤ 90)
  | .pinf => false
  | .ninf => false

/-- The chained comparison `-180.0 <= lon <= 180.0` on a float value. -/
def lonInRange : FloatVal → Bool
  | .fin q => decide (-180 ≤ q) && decide (q ≤ 180)
  | .pinf => false
  | .ninf => false

/-- `_valid_lat_lon`: false when either value is NA; otherwise convert
both to float (an exception is caught and yields false) and check
finiteness and the geographic ranges. -/
def _valid_lat_lon (lat lon : Cand) : Bool :=
  if isna lat || isna lon then false
  else
    match asFloat lat, asFloat lon with
    | some a, some b => isFinite a && isFinite b && latInRange a && lonInRange b
    | _, _ => false

/-- One row of the unified metadata table, restricted to the columns
`fill_and_filter_geo` reads or writes.  `none` in `Run`, `Sample`,
`geographic_location` models a NaN cell. -/
structure Record where
  Run : Option String
  Sample : Option String
  latitude : Cand
  longitude : Cand
  geographic_location : Option String
  deriving DecidableEq, Repr

/-- One ENA answer row: the coordinate columns brought in by the merge. -/
structure Geo where
  latitude : Cand
  longitude : Cand
  geographic_location : Option String
  deriving DecidableEq, Repr

/-- `fillna` on a coordinate cell: keep the present value, else take the
merged one. -/
def fillCand (old new : Cand) : Cand :=
  if isna old then new else old

/-- `fillna` on a text cell. -/
def fillOpt (old new : Option String) : Option String :=
  match old with
  | some v => some v
  | none => new

/-- Row mask of pass 1: `Run` present and latitude or longitude missing. -/
def needGeo (r : Record) : Bool :=
  r.Run.isSome && (isna r.latitude || isna r.longitude)

/-- `runs_to_enrich`: the distinct `Run` values of rows needing
coordinates (pass 1 queries ENA `read_run` for exactly these). -/
def runsToEnrich (df : List Record) : List String :=
  (df.filterMap fun r => if needGeo r then r.Run else none).dedup

/-- `fillna` of the three merged columns of one row against one ENA
answer row. -/
def fillGeo (r : Record) (g : Geo) : Record :=
  { r with latitude := fillCand r.latitude g.latitude,
           longitude := fillCand r.longitude g.longitude,
           geographic_location :=
             fillOpt r.geographic_location g.geographic_location }

/-- Pass 1 merge on one row: left join on `Run` against the ENA
`read_run` answer (modelled as a lookup keyed by run accession,
restricted to the queried runs), then `fillna` each coordinate column. -/
def fillFromRun (runLookup : String → Option Geo) (rte : List String)
    (r : Record) : Record :=
  match r.Run with
  | none => r
  | some R =>
      if R ∈ rte then
        match runLookup R with
        | some g => fillGeo r g
        | none => r
      else r

/-- Row mask of pass 2: latitude or longitude still missing and `Sample`
present. -/
def stillMissingSample (r : Record) : Bool :=
  (isna r.latitude || isna r.longitude) && r.Sample.isSome

/-- `samples_to_enrich`: distinct `Sample` values of rows still missing
coordinates after pass 1. -/
def samplesToEnrich (df : List Record) : List String :=
  (df.filterMap fun r => if stillMissingSample r then r.Sample else none).dedup

/-- Pass 2 merge on one row: left join on `Sample` against the ENA
`sample` answer, then `fillna`. -/
def fillFromSample (sampleLookup : String → Option Geo) (ste : List String)
    (r : Record) : Record :=
  match r.Sample with
  | none => r
  | some S =>
      if S ∈ ste then
        match sampleLookup S with
        | some g => fillGeo r g
        | none => r
      else r

/-- The latitude parsed from a row's free-text location, as a cell
(`nan` when the parse found nothing). -/
def parsedLat (r : Record) : Cand :=
  match _extract_lat_lon_from_text r.geographic_location with
  | some (a, _) => .num a
  | none => .absent

/-- The longitude parsed from a row's free-text location. -/
def parsedLon (r : Record) : Cand :=
  match _extract_lat_lon_from_text r.geographic_location with
  | some (_, b) => .num b
  | none => .absent

/-- Pass 3 on one row: on rows still missing a coordinate, `fillna` each
coordinate column with the value parsed from `geographic_location`. -/
def fillFromText (r : Record) : Record :=
  if isna r.latitude || isna r.longitude then
    { r with latitude := fillCand r.latitude (parsedLat r),
             longitude := fillCand r.longitude (parsedLon r) }
  else r

/-- `pd.to_numeric(col, errors="coerce")` on one cell: a non-numeric
value becomes NaN, everything else keeps its numeric value. -/
def toNumeric : Cand → Cand
  | .nonNum => .absent
  | c => c

/-- The final numeric coercion of both coordinate columns. -/
def coerceNumeric (r : Record) : Record :=
  { r with latitude := toNumeric r.latitude, longitude := toNumeric r.longitude }

/-- `fill_and_filter_geo`: fill missing coordinates from ENA by run,
then from ENA by sample, then by parsing the free-text location; coerce
the coordinate columns to numeric and keep only rows whose final
coordinates `_valid_lat_lon` accepts.  The two ENA collaborators are
passed as lookups keyed by accession. -/
def fill_and_filter_geo (runLookup sampleLookup : String → Option Geo)
    (df : List Record) : List Record :=
  let df1 := df.map (fillFromRun runLookup (runsToEnrich df))
  let df2 := df1.map (fillFromSample sampleLookup (samplesToEnrich df1))
  let df3 := df2.map fillFromText
  let df4 := df3.map coerceNumeric
  df4.filter fun r => _valid_lat_lon r.latitude r.longitude

/-- One row of the table returned by `enrich_coords_from_ena_by_runs`:
the schema columns `Run`, `latitude`, `longitude`,
`geographic_location`. -/
structure RunRow where
  Run : String
  latitude : Cand
  longitude : Cand
  geographic_location : Option String
  deriving DecidableEq, Repr

/-- One row of the table returned by
`enrich_coords_from_ena_by_samples`: the schema columns `Sample`,
`latitude`, `longitude`, `geographic_location`. -/
structure SampleRow where
  Sample : String
  latitude : Cand
  longitude : Cand
  geographic_location : Option String
  deriving DecidableEq, Repr

/-- The id filter of both enrichment functions: keep only string ids
that are non-empty after stripping. -/
def cleanIds (ids : List (Option String)) : List String :=
  ids.filterMap fun o =>
    match o with
    | some s => if pyStrip s.data = [] then none else some s
    | none => none

/-- `ids[i:i+n]` slices for `i in range(0, len(ids), n)`, computed with
fuel (the list length suffices when `n > 0`). -/
def chunksF {α : Type} : ℕ → ℕ → List α → List (List α)
  | 0, _, _ => []
  | _ + 1, _, [] => []
  | fuel + 1, n, a :: t => (a :: t).take n :: chunksF fuel n ((a :: t).drop n)

/-- The chunking of the enrichment loop. -/
def chunks {α : Type} (n : ℕ) (l : List α) : List (List α) :=
  chunksF l.length n l

/-- The try/except of one loop iteration: a raised exception is caught
and the chunk contributes no rows. -/
def recover {β : Type} : Except Unit (List β) → List β
  | .ok rows => rows
  | .error _ => []

/-- `enrich_coords_from_ena_by_runs`: query ENA `read_run` one chunk at
a time; a chunk whose request raises is caught and contributes nothing;
the returned table is the concatenation of the successful chunks' rows
(an empty table when nothing succeeded).  The network interaction for
one chunk is the parameter `fetch`, `Except.error` modelling a raised
exception. -/
def enrich_coords_from_ena_by_runs
    (fetch : List String → Except Unit (List RunRow))
    (runIds : List (Option String)) (chunkSize : ℕ) : List RunRow :=
  ((chunks chunkSize (cleanIds runIds)).map fun c => recover (fetch c)).flatten

/-- `enrich_coords_from_ena_by_samples`: the same loop keyed by sample
accession against ENA `sample`. -/
def enrich_coords_from_ena_by_samples
    (fetch : List String → Except Unit (List SampleRow))
    (sampleIds : List (Option String)) (chunkSize : ℕ) : List SampleRow :=
  ((chunks chunkSize (cleanIds sampleIds)).map fun c => recover (fetch c)).flatten

/-- The retry loop of `run_cmd`: `rem` attempts remain, `made` attempts
were made, `last` is the last exit code seen (initially 1).  Attempt
number `made + 1` returns exit code `call (made + 1)`.  The result is
the returned exit code paired with the number of attempts performed. -/
def runCmdGo (call : ℕ → ℤ) : ℕ → ℕ → ℤ → ℤ × ℕ
  | 0, made, last => (last, made)
  | rem + 1, made, _ =>
      if call (made + 1) = 0 then (0, made + 1)
      else runCmdGo call rem (made + 1) (call (made + 1))

/-- The Python function named run underscore cmd (that exact string is a
reserved command token in Lean, so the definition is named `runCmd`):
invoke the command up to `retries` times, returning 0 at the first
attempt that exits 0 and otherwise the exit code of the last attempt
(1 when `retries = 0`, from the initial `last = 1`).  The command is
the parameter `call`, giving the exit code of each attempt. -/
def runCmd (call : ℕ → ℤ) (retries : ℕ) : ℤ × ℕ :=
  runCmdGo call retries 0 1

/-! ### Scanner lemmas -/

lemma ws_not_special {w : Char} (h : w.isWhitespace = true) :
    w.isDigit = false ∧ w ≠ '+' ∧ w ≠ '-' ∧ w ≠ '.' ∧ isHemi w = false := by
  simp only [Char.isWhitespace, Bool.or_eq_true, decide_eq_true_eq] at h
  rcases h with ((h | h) | h) | h <;> subst h <;>
    refine ⟨by decide, by decide, by decide, by decide, by decide⟩

lemma hemi_not_special {c : Char} (h : isHemi c = true) :
    c.isDigit = false ∧ c ≠ '+' ∧ c ≠ '-' := by
  simp only [isHemi, Bool.or_eq_true, decide_eq_true_eq] at h
  rcases h with ((((((h | h) | h) | h) | h) | h) | h) | h <;> subst h <;>
    refine ⟨by decide, by decide, by decide⟩

lemma idleStep_ws {w : Char} (h : w.isWhitespace = true) : idleStep w = .idle := by
  obtain ⟨h1, h2, h3, -, -⟩ := ws_not_special h
  simp [idleStep, h1, h2, h3]

lemma idleStep_hemi {c : Char} (h : isHemi c = true) : idleStep c = .idle := by
  obtain ⟨h1, h2, h3⟩ := hemi_not_special h
  simp [idleStep, h1, h2, h3]

/-- A whitespace character ends any pending token exactly as end of
input would, and puts the scanner back to `idle`. -/
lemma step_ws (st : ScanState) {w : Char} (h : w.isWhitespace = true) :
    step st w = (flush st, .idle) := by
  obtain ⟨h1, h2, h3, h4, h5⟩ := ws_not_special h
  cases st <;> simp [step, flush, h1, h2, h3, h4, h5, idleStep_ws h]

lemma scanFrom_ws {ws : List Char} (h : ∀ c ∈ ws, c.isWhitespace = true) :
    ∀ st, scanFrom st ws = flush st := by
  induction ws with
  | nil => intro st; rfl
  | cons w t ih =>
      intro st
      have hw : w.isWhitespace = true := h w (by simp)
      have ht : ∀ c ∈ t, c.isWhitespace = true := fun c hc => h c (by simp [hc])
      rw [scanFrom, step_ws st hw]
      simp [ih ht ScanState.idle, flush]

lemma scanFrom_append_ws {ws : List Char} (h : ∀ c ∈ ws, c.isWhitespace = true) :
    ∀ (a : List Char) (st : ScanState), scanFrom st (a ++ ws) = scanFrom st a := by
  intro a
  induction a with
  | nil => intro st; rw [List.nil_append, scanFrom_ws h]; rfl
  | cons c t ih => intro st; rw [List.cons_append, scanFrom, scanFrom, ih]

lemma scanFrom_dropWhile_ws :
    ∀ l : List Char, scanFrom .idle (l.dropWhile Char.isWhitespace) = scanFrom .idle l := by
  intro l
  induction l with
  | nil => rfl
  | cons c t ih =>
      by_cases hc : c.isWhitespace = true
      · rw [List.dropWhile_cons_of_pos hc, ih, scanFrom, step, idleStep_ws hc]
        simp
      · rw [List.dropWhile_cons_of_neg hc]

/-- Stripping leading and trailing whitespace does not change the token
list found by the hemisphere-aware scan. -/
lemma findallHemi_pyStrip (l : List Char) : findallHemi (pyStrip l) = findallHemi l := by
  unfold findallHemi pyStrip
  set l1 := l.dropWhile Char.isWhitespace with hl1
  have hdecomp : l1 = ((l1.reverse.dropWhile Char.isWhitespace).reverse) ++
      ((l1.reverse.takeWhile Char.isWhitespace).reverse) := by
    have := List.takeWhile_append_dropWhile (p := Char.isWhitespace) (l := l1.reverse)
    calc l1 = l1.reverse.reverse := by rw [List.reverse_reverse]
    _ = (l1.reverse.takeWhile Char.isWhitespace ++ l1.reverse.dropWhile Char.isWhitespace).reverse := by rw [this]
    _ = _ := by rw [List.reverse_append]
  have hws : ∀ c ∈ (l1.reverse.takeWhile Char.isWhitespace).reverse, c.isWhitespace = true := by
    intro c hc
    rw [List.mem_reverse] at hc
    exact List.mem_takeWhile_imp hc
  calc scanFrom .idle ((l1.reverse.dropWhile Char.isWhitespace).reverse)
      = scanFrom .idle (((l1.reverse.dropWhile Char.isWhitespace).reverse) ++
          ((l1.reverse.takeWhile Char.isWhitespace).reverse)) := (scanFrom_append_ws hws _ _).symm
    _ = scanFrom .idle l1 := by rw [← hdecomp]
    _ = scanFrom .idle l := scanFrom_dropWhile_ws l

/-- The plain scanner performs exactly the hemisphere-aware scanner's
transitions and emits the same values, without the hemisphere letters. -/
lemma stepP_eq (st : ScanState) (c : Char) :
    stepP st c = ((step st c).1.map Prod.fst, (step st c).2) := by
  cases st with
  | idle => rfl
  | sgn neg => by_cases hd : c.isDigit = true <;> simp [step, stepP, hd]
  | intPart neg ip =>
      by_cases hd : c.isDigit = true
      · simp [step, stepP, hd]
      · by_cases hdot : c = '.'
        · simp [step, stepP, hd, hdot]
        · by_cases hh : isHemi c = true
          · simp [step, stepP, hd, hdot, hh, idleStep_hemi hh]
          · simp [step, stepP, hd, hdot, hh]
  | dotPart neg ip => by_cases hd : c.isDigit = true <;> simp [step, stepP, hd]
  | fracPart neg ip fn fd =>
      by_cases hd : c.isDigit = true
      · simp [step, stepP, hd]
      · by_cases hh : isHemi c = true
        · simp [step, stepP, hd, hh, idleStep_hemi hh]
        · simp [step, stepP, hd, hh]

lemma flushP_eq (st : ScanState) : flushP st = (flush st).map Prod.fst := by
  cases st <;> rfl

lemma scanPFrom_eq : ∀ (l : List Char) (st : ScanState),
    scanPFrom st l = (scanFrom st l).map Prod.fst := by
  intro l
  induction l with
  | nil => intro st; exact flushP_eq st
  | cons c t ih =>
      intro st
      rw [scanPFrom, scanFrom, stepP_eq, List.map_append, ih]

/-- The numbers found by the plain scan are exactly the numeric parts of
the tokens found by the hemisphere-aware scan: the hemisphere letter is
optional, so the two patterns match the same numeric substrings. -/
lemma findallPlain_eq (l : List Char) :
    findallPlain l = (findallHemi l).map Prod.fst :=
  scanPFrom_eq l .idle

lemma findallPlain_length (l : List Char) :
    (findallPlain l).length = (findallHemi l).length := by
  rw [findallPlain_eq, List.length_map]

/-! ### Extraction lemmas -/

lemma parse_some_of_tokens (s : String) (t1 t2 : ℚ × Option Char)
    (rest : List (ℚ × Option Char))
    (h : findallHemi (pyStrip s.data) = t1 :: t2 :: rest) :
    _parse_ns_ew (some s) = some (applyHemi t1, applyHemi t2) := by
  simp [_parse_ns_ew, h]

lemma parse_none_of_short (s : String)
    (h : (findallHemi (pyStrip s.data)).length < 2) :
    _parse_ns_ew (some s) = none := by
  cases hL : findallHemi (pyStrip s.data) with
  | nil => simp [_parse_ns_ew, hL]
  | cons x t =>
      cases t with
      | nil => simp [_parse_ns_ew, hL]
      | cons y r => rw [hL] at h; simp at h; omega

/-- `_extract_lat_lon_from_text` never returns a pair through its
fallback branch: the hemisphere letter of the first pattern is optional,
so the two patterns find the same numeric substrings, and when
`_parse_ns_ew` found fewer than two the fallback also finds fewer than
two. -/
lemma extract_eq_parse (s : Option String) :
    _extract_lat_lon_from_text s = _parse_ns_ew s := by
  cases s with
  | none => rfl
  | some str =>
      have hplain : findallPlain str.data
          = (findallHemi (pyStrip str.data)).map Prod.fst := by
        rw [findallPlain_eq, findallHemi_pyStrip]
      cases hL : findallHemi (pyStrip str.data) with
      | nil =>
          have hp : _parse_ns_ew (some str) = none := by simp [_parse_ns_ew, hL]
          rw [hL] at hplain
          simp [_extract_lat_lon_from_text, hp, hplain]
      | cons x t =>
          cases t with
          | nil =>
              have hp : _parse_ns_ew (some str) = none := by
                simp [_parse_ns_ew, hL]
              rw [hL] at hplain
              simp [_extract_lat_lon_from_text, hp, hplain]
          | cons y r =>
              have hp := parse_some_of_tokens str x y r hL
              simp [_extract_lat_lon_from_text, hp]

lemma extract_fallback (s : String) (h : _parse_ns_ew (some s) = none) :
    _extract_lat_lon_from_text (some s) =
      match findallPlain s.data with
      | a :: b :: _ => some (a, b)
      | _ => none := by
  simp [_extract_lat_lon_from_text, h]

/-! ### Validator lemmas -/

lemma valid_lat_lon_iff (lat lon : Cand) :
    _valid_lat_lon lat lon = true ↔
      ∃ a b : ℚ, lat = .num a ∧ lon = .num b ∧
        -90 ≤ a ∧ a ≤ 90 ∧ -180 ≤ b ∧ b ≤ 180 := by
  cases lat <;> cases lon <;>
    simp [_valid_lat_lon, isna, asFloat, isFinite, latInRange, lonInRange,
      and_assoc]

/-! ### Fill-pass lemmas -/

lemma fillCand_present {old : Cand} (new : Cand) (h : isna old = false) :
    fillCand old new = old := by
  simp [fillCand, h]

lemma fillOpt_present {old : Option String} (new : Option String)
    (h : old.isSome = true) : fillOpt old new = old := by
  cases old with
  | none => simp at h
  | some v => rfl

lemma fillFromRun_cases (rl : String → Option Geo) (rte : List String)
    (r : Record) :
    fillFromRun rl rte r = r ∨ ∃ g, fillFromRun rl rte r = fillGeo r g := by
  obtain ⟨R, S, la, lo, gl⟩ := r
  cases R with
  | none => exact Or.inl rfl
  | some R =>
      by_cases hm : R ∈ rte
      · cases hg : rl R with
        | none => left; simp [fillFromRun, hm, hg]
        | some g => right; exact ⟨g, by simp [fillFromRun, hm, hg]⟩
      · left; simp [fillFromRun, hm]

lemma fillFromSample_cases (sl : String → Option Geo) (ste : List String)
    (r : Record) :
    fillFromSample sl ste r = r ∨ ∃ g, fillFromSample sl ste r = fillGeo r g := by
  obtain ⟨R, S, la, lo, gl⟩ := r
  cases S with
  | none => exact Or.inl rfl
  | some S =>
      by_cases hm : S ∈ ste
      · cases hg : sl S with
        | none => left; simp [fillFromSample, hm, hg]
        | some g => right; exact ⟨g, by simp [fillFromSample, hm, hg]⟩
      · left; simp [fillFromSample, hm]

lemma fillFromRun_nil (rl : String → Option Geo) (r : Record) :
    fillFromRun rl [] r = r := by
  obtain ⟨R, S, la, lo, gl⟩ := r
  cases R with
  | none => rfl
  | some R => simp [fillFromRun]

lemma fillFromSample_nil (sl : String → Option Geo) (r : Record) :
    fillFromSample sl [] r = r := by
  obtain ⟨R, S, la, lo, gl⟩ := r
  cases S with
  | none => rfl
  | some S => simp [fillFromSample]

lemma fillFromText_id (r : Record) (h1 : isna r.latitude = false)
    (h2 : isna r.longitude = false) : fillFromText r = r := by
  simp [fillFromText, h1, h2]

lemma fillFromText_lat (r : Record) (h : isna r.latitude = false) :
    (fillFromText r).latitude = r.latitude := by
  unfold fillFromText
  by_cases hc : (isna r.latitude || isna r.longitude) = true
  · simp [hc, fillCand_present _ h]
  · simp [hc]

lemma fillFromText_lon (r : Record) (h : isna r.longitude = false) :
    (fillFromText r).longitude = r.longitude := by
  unfold fillFromText
  by_cases hc : (isna r.latitude || isna r.longitude) = true
  · simp [hc, fillCand_present _ h]
  · simp [hc]

lemma fillFromText_gl (r : Record) :
    (fillFromText r).geographic_location = r.geographic_location := by
  unfold fillFromText
  by_cases hc : (isna r.latitude || isna r.longitude) = true
  · simp [hc]
  · simp [hc]

lemma coerceNumeric_id (r : Record) (a b : ℚ) (h1 : r.latitude = .num a)
    (h2 : r.longitude = .num b) : coerceNumeric r = r := by
  obtain ⟨R, S, la, lo, gl⟩ := r
  simp only at h1 h2
  subst h1 h2
  simp [coerceNumeric, toNumeric]

/-! ### Resolver lemmas -/

lemma map_id_of_mem {α : Type} {l : List α} {f : α → α}
    (h : ∀ x ∈ l, f x = x) : l.map f = l := by
  induction l with
  | nil => rfl
  | cons a t ih =>
      rw [List.map_cons, h a (by simp), ih fun x hx => h x (by simp [hx])]

lemma resolver_output_valid (rl sl : String → Option Geo) (df : List Record)
    (r : Record) (h : r ∈ fill_and_filter_geo rl sl df) :
    _valid_lat_lon r.latitude r.longitude = true := by
  unfold fill_and_filter_geo at h
  exact (List.mem_filter.mp h).2

lemma resolver_id (rl sl : String → Option Geo) (df : List Record)
    (h : ∀ r ∈ df, _valid_lat_lon r.latitude r.longitude = true) :
    fill_and_filter_geo rl sl df = df := by
  have hnum : ∀ r ∈ df, isna r.latitude = false ∧ isna r.longitude = false := by
    intro r hr
    obtain ⟨a, b, ha, hb, -⟩ := (valid_lat_lon_iff _ _).mp (h r hr)
    rw [ha, hb]
    exact ⟨rfl, rfl⟩
  have hrte : runsToEnrich df = [] := by
    unfold runsToEnrich
    rw [List.dedup_eq_nil, List.filterMap_eq_nil_iff]
    intro r hr
    obtain ⟨h1, h2⟩ := hnum r hr
    simp [needGeo, h1, h2]
  have hdf1 : df.map (fillFromRun rl (runsToEnrich df)) = df := by
    rw [hrte]
    exact map_id_of_mem fun r _ => fillFromRun_nil rl r
  have hste : samplesToEnrich df = [] := by
    unfold samplesToEnrich
    rw [List.dedup_eq_nil, List.filterMap_eq_nil_iff]
    intro r hr
    obtain ⟨h1, h2⟩ := hnum r hr
    simp [stillMissingSample, h1, h2]
  have hdf2 : df.map (fillFromSample sl (samplesToEnrich df)) = df := by
    rw [hste]
    exact map_id_of_mem fun r _ => fillFromSample_nil sl r
  have hdf3 : df.map fillFromText = df :=
    map_id_of_mem fun r hr => fillFromText_id r (hnum r hr).1 (hnum r hr).2
  have hdf4 : df.map coerceNumeric = df := by
    refine map_id_of_mem fun r hr => ?_
    obtain ⟨a, b, ha, hb, -⟩ := (valid_lat_lon_iff _ _).mp (h r hr)
    exact coerceNumeric_id r a b ha hb
  simp only [fill_and_filter_geo]
  rw [hdf1, hdf2, hdf3, hdf4]
  exact List.filter_eq_self.mpr h

/-! ### Enrichment chunk lemmas -/

lemma flatten_recover {β : Type} (f : List String → Except Unit (List β))
    (L : List (List String)) :
    (L.map fun c => recover (f c)).flatten
      = (L.filterMap fun c => (f c).toOption).flatten := by
  induction L with
  | nil => rfl
  | cons c t ih =>
      cases hf : f c with
      | ok rows =>
          simp only [List.map_cons, List.filterMap_cons, hf, recover,
            Except.toOption, List.flatten_cons] at ih ⊢
          rw [ih]
      | error e =>
          simp only [List.map_cons, List.filterMap_cons, hf, recover,
            Except.toOption, List.flatten_cons, List.nil_append] at ih ⊢
          exact ih

/-! ### Retry lemmas -/

lemma runCmdGo_count (call : ℕ → ℤ) :
    ∀ (rem made : ℕ) (last : ℤ),
      made ≤ (runCmdGo call rem made last).2 ∧
      (runCmdGo call rem made last).2 ≤ made + rem := by
  intro rem
  induction rem with
  | zero => intro made last; exact ⟨le_refl _, by simp [runCmdGo]⟩
  | succ n ih =>
      intro made last
      unfold runCmdGo
      by_cases hc : call (made + 1) = 0
      · rw [if_pos hc]
        exact ⟨by show made ≤ made + 1; omega, by show made + 1 ≤ made + (n + 1); omega⟩
      · rw [if_neg hc]
        obtain ⟨ih1, ih2⟩ := ih (made + 1) (call (made + 1))
        exact ⟨by omega, by omega⟩

lemma runCmdGo_finds (call : ℕ → ℤ) :
    ∀ (rem made : ℕ) (last : ℤ) (k : ℕ), made < k → k ≤ made + rem →
      call k = 0 → (∀ j, made < j → j < k → call j ≠ 0) →
      runCmdGo call rem made last = (0, k) := by
  intro rem
  induction rem with
  | zero => intro made last k h1 h2 _ _; omega
  | succ n ih =>
      intro made last k h1 h2 hk hmin
      unfold runCmdGo
      by_cases hc : call (made + 1) = 0
      · have hkeq : k = made + 1 := by
          by_contra hne
          exact hmin (made + 1) (by omega) (by omega) hc
        rw [if_pos hc, hkeq]
      · rw [if_neg hc]
        have hkne : k ≠ made + 1 := fun he => hc (he ▸ hk)
        exact ih (made + 1) (call (made + 1)) k (by omega) (by omega) hk
          fun j hj1 hj2 => hmin j (by omega) hj2

lemma runCmdGo_all_fail (call : ℕ → ℤ) :
    ∀ (rem made : ℕ) (last : ℤ), 1 ≤ rem →
      (∀ j, made < j → j ≤ made + rem → call j ≠ 0) →
      runCmdGo call rem made last = (call (made + rem), made + rem) := by
  intro rem
  induction rem with
  | zero => intro made last h; omega
  | succ n ih =>
      intro made last _ hall
      have hc : call (made + 1) ≠ 0 := hall (made + 1) (by omega) (by omega)
      unfold runCmdGo
      rw [if_neg hc]
      cases n with
      | zero => simp [runCmdGo]
      | succ m =>
          have hrec := ih (made + 1) (call (made + 1)) (by omega)
            fun j hj1 hj2 => hall j (by omega) (by omega)
          have harg : made + 1 + (m + 1) = made + (m + 1 + 1) := by omega
          rw [hrec, harg]

/-! ### Claims -/

/-- C1: every record in the final output of `fill_and_filter_geo` passes
`_valid_lat_lon` on its final coordinates, hence has a present, finite
latitude in [-90, 90] and longitude in [-180, 180]; a record whose
coordinates remain missing or invalid after the three fill passes
(including one with no location text and failed lookups) is removed and
never appears in the output with a null or out-of-range coordinate. -/
theorem claim_C1_output_coordinates_valid
    (runLookup sampleLookup : String → Option Geo) (df : List Record)
    (r : Record) (h : r ∈ fill_and_filter_geo runLookup sampleLookup df) :
    _valid_lat_lon r.latitude r.longitude = true ∧
      ∃ a b : ℚ, r.latitude = .num a ∧ r.longitude = .num b ∧
        -90 ≤ a ∧ a ≤ 90 ∧ -180 ≤ b ∧ b ≤ 180 :=
  ⟨resolver_output_valid _ _ _ _ h,
   (valid_lat_lon_iff _ _).mp (resolver_output_valid _ _ _ _ h)⟩

/-- Witness for C1 at a concrete one-row table with valid coordinates. -/
theorem claim_C1_output_coordinates_valid_witness :
    (⟨none, none, .num 10, .num 20, none⟩ : Record) ∈
        fill_and_filter_geo (fun _ => none) (fun _ => none)
          [⟨none, none, .num 10, .num 20, none⟩] ∧
      (_valid_lat_lon (Cand.num 10) (Cand.num 20) = true ∧
        ∃ a b : ℚ, (⟨none, none, .num 10, .num 20, none⟩ : Record).latitude = .num a ∧
          (⟨none, none, .num 10, .num 20, none⟩ : Record).longitude = .num b ∧
          -90 ≤ a ∧ a ≤ 90 ∧ -180 ≤ b ∧ b ≤ 180) :=
  ⟨by decide,
   claim_C1_output_coordinates_valid (fun _ => none) (fun _ => none)
     [⟨none, none, .num 10, .num 20, none⟩]
     ⟨none, none, .num 10, .num 20, none⟩ (by decide)⟩

/-- C2: `_valid_lat_lon` returns true exactly when both candidates are
present, numeric and finite with latitude in [-90, 90] and longitude in
[-180, 180]; for absent, non-numeric, infinite or out-of-range values it
returns false as a normal boolean outcome (it is a total function: the
`float()` exception is caught and becomes false). -/
theorem claim_C2_validator_iff (lat lon : Cand) :
    _valid_lat_lon lat lon = true ↔
      ∃ a b : ℚ, lat = .num a ∧ lon = .num b ∧
        -90 ≤ a ∧ a ≤ 90 ∧ -180 ≤ b ∧ b ≤ 180 :=
  valid_lat_lon_iff lat lon

/-- C3: whenever the hemisphere-aware scan of the stripped input finds
at least two tokens, `_parse_ns_ew` returns the first two values with
the sign convention applied exactly: a hemisphere letter S or W forces
the magnitude negative, N or E forces it positive, and no letter leaves
the signed value as-is; in particular "23.5S 45.2W" yields
(-23.5, -45.2), which the validator accepts. -/
theorem claim_C3_sign_convention :
    (∀ (s : String) (t1 t2 : ℚ × Option Char) (rest : List (ℚ × Option Char)),
        findallHemi (pyStrip s.data) = t1 :: t2 :: rest →
        _parse_ns_ew (some s) = some (applyHemi t1, applyHemi t2)) ∧
    (∀ x : ℚ,
        applyHemi (x, some 'S') = -|x| ∧ applyHemi (x, some 's') = -|x| ∧
        applyHemi (x, some 'W') = -|x| ∧ applyHemi (x, some 'w') = -|x| ∧
        applyHemi (x, some 'N') = |x| ∧ applyHemi (x, some 'n') = |x| ∧
        applyHemi (x, some 'E') = |x| ∧ applyHemi (x, some 'e') = |x| ∧
        applyHemi (x, none) = x) ∧
    _parse_ns_ew (some "23.5S 45.2W") = some (-(47/2 : ℚ), -(226/5 : ℚ)) ∧
    _valid_lat_lon (.num (-(47/2))) (.num (-(226/5))) = true := by
  refine ⟨parse_some_of_tokens, fun x => ⟨rfl, rfl, rfl, rfl, rfl, rfl, rfl, rfl, rfl⟩, ?_, ?_⟩
  · have h : _parse_ns_ew (some "23.5S 45.2W")
        = some (-|mkVal false 23 5 10|, -|mkVal false 45 2 10|) := rfl
    have h1 : mkVal false 23 5 10 = (47 : ℚ)/2 := by norm_num [mkVal]
    have h2 : mkVal false 45 2 10 = (226 : ℚ)/5 := by norm_num [mkVal]
    rw [h, h1, h2, abs_of_pos (by norm_num : (0 : ℚ) < 47/2),
      abs_of_pos (by norm_num : (0 : ℚ) < 226/5)]
  · exact (valid_lat_lon_iff _ _).mpr
      ⟨-(47/2), -(226/5), rfl, rfl, by norm_num, by norm_num, by norm_num, by norm_num⟩

/-- Witness for C3 on the concrete token list of "23.5S 45.2W". -/
theorem claim_C3_sign_convention_witness :
    findallHemi (pyStrip "23.5S 45.2W".data)
        = [(mkVal false 23 5 10, some 'S'), (mkVal false 45 2 10, some 'W')] ∧
      _parse_ns_ew (some "23.5S 45.2W")
        = some (applyHemi (mkVal false 23 5 10, some 'S'),
                applyHemi (mkVal false 45 2 10, some 'W')) :=
  ⟨rfl, claim_C3_sign_convention.1 "23.5S 45.2W" _ _ [] rfl⟩

/-- C4: on any string in which the plain numeric scan finds fewer than
two numbers, `_extract_lat_lon_from_text` reports "not found" (`none`,
the `(nan, nan)` return), and likewise on non-string input; it never
fabricates zero coordinates. -/
theorem claim_C4_not_found :
    (∀ s : String, (findallPlain s.data).length < 2 →
        _extract_lat_lon_from_text (some s) = none) ∧
    _extract_lat_lon_from_text none = none := by
  refine ⟨fun s h => ?_, rfl⟩
  have hh : (findallHemi (pyStrip s.data)).length < 2 := by
    rw [findallHemi_pyStrip, ← findallPlain_length]
    exact h
  rw [extract_eq_parse]
  exact parse_none_of_short s hh

/-- Witness for C4 at the numberless string "abc". -/
theorem claim_C4_not_found_witness :
    (findallPlain "abc".data).length < 2 ∧
      _extract_lat_lon_from_text (some "abc") = none :=
  ⟨by decide, claim_C4_not_found.1 "abc" (by decide)⟩

/-- C5 counterexample: on the input "91.0, 10.0" the hemisphere-aware
scan itself finds two tokens (the hemisphere letter of its pattern is
optional) and `_parse_ns_ew` already returns the pair, so the extraction
of (91.0, 10.0) does not happen "via the fallback path" as the claim
states. -/
theorem claim_C5_counterexample :
    (findallHemi (pyStrip "91.0, 10.0".data)).length = 2 ∧
      _parse_ns_ew (some "91.0, 10.0") ≠ none := by
  refine ⟨rfl, fun h => ?_⟩
  have hp : _parse_ns_ew (some "91.0, 10.0")
      = some (mkVal false 91 0 10, mkVal false 10 0 10) := rfl
  rw [hp] at h
  exact Option.noConfusion h

/-- C5 amended: when `_parse_ns_ew` found no pair, the Extractor falls
back to the plain scan for two numeric substrings taken as (latitude,
longitude) with no sign adjustment; the input "91.0, 10.0", however, is
matched by the hemisphere-aware scan itself and yields (91.0, 10.0)
without the fallback, and the Validator then rejects it (latitude out
of range). -/
theorem claim_C5_amended :
    (∀ s : String, _parse_ns_ew (some s) = none →
        _extract_lat_lon_from_text (some s) =
          match findallPlain s.data with
          | a :: b :: _ => some (a, b)
          | _ => none) ∧
    _parse_ns_ew (some "91.0, 10.0") = some ((91 : ℚ), (10 : ℚ)) ∧
    _extract_lat_lon_from_text (some "91.0, 10.0") = some ((91 : ℚ), (10 : ℚ)) ∧
    _valid_lat_lon (.num 91) (.num 10) = false := by
  have hp : _parse_ns_ew (some "91.0, 10.0")
      = some (mkVal false 91 0 10, mkVal false 10 0 10) := rfl
  have h91 : mkVal false 91 0 10 = (91 : ℚ) := by norm_num [mkVal]
  have h10 : mkVal false 10 0 10 = (10 : ℚ) := by norm_num [mkVal]
  have hp2 : _parse_ns_ew (some "91.0, 10.0") = some ((91 : ℚ), (10 : ℚ)) := by
    rw [hp, h91, h10]
  refine ⟨fun s h => extract_fallback s h, hp2, ?_, by decide⟩
  rw [extract_eq_parse]
  exact hp2

/-- Witness for C5 amended, applying the fallback clause at "abc". -/
theorem claim_C5_amended_witness :
    _parse_ns_ew (some "abc") = none ∧
      _extract_lat_lon_from_text (some "abc") =
        match findallPlain "abc".data with
        | a :: b :: _ => some (a, b)
        | _ => none :=
  ⟨by decide, claim_C5_amended.1 "abc" (by decide)⟩

/-- C6: the enrichment merge is first-source-wins: a latitude,
longitude or location value already present before the per-run,
per-sample or free-text pass is left unchanged by that pass; lookup and
parse results only fill missing fields. -/
theorem claim_C6_first_source_wins (rl sl : String → Option Geo)
    (rte ste : List String) (r : Record) :
    (isna r.latitude = false →
        (fillFromRun rl rte r).latitude = r.latitude ∧
        (fillFromSample sl ste r).latitude = r.latitude ∧
        (fillFromText r).latitude = r.latitude) ∧
    (isna r.longitude = false →
        (fillFromRun rl rte r).longitude = r.longitude ∧
        (fillFromSample sl ste r).longitude = r.longitude ∧
        (fillFromText r).longitude = r.longitude) ∧
    (r.geographic_location.isSome = true →
        (fillFromRun rl rte r).geographic_location = r.geographic_location ∧
        (fillFromSample sl ste r).geographic_location = r.geographic_location ∧
        (fillFromText r).geographic_location = r.geographic_location) := by
  refine ⟨fun h => ⟨?_, ?_, fillFromText_lat r h⟩,
          fun h => ⟨?_, ?_, fillFromText_lon r h⟩,
          fun h => ⟨?_, ?_, fillFromText_gl r⟩⟩
  all_goals
    first
    | (rcases fillFromRun_cases rl rte r with he | ⟨g, he⟩ <;> rw [he] <;>
        first
          | rfl
          | exact fillCand_present _ h
          | exact fillOpt_present _ h)
    | (rcases fillFromSample_cases sl ste r with he | ⟨g, he⟩ <;> rw [he] <;>
        first
          | rfl
          | exact fillCand_present _ h
          | exact fillOpt_present _ h)

/-- Witness for C6 on a record with all three fields present. -/
theorem claim_C6_first_source_wins_witness :
    (fillFromRun (fun _ => some ⟨.num 1, .num 2, some "g"⟩) ["R"]
        ⟨some "R", some "S", .num 5, .num 6, some "loc"⟩).latitude = .num 5 ∧
    (fillFromSample (fun _ => some ⟨.num 1, .num 2, some "g"⟩) ["S"]
        ⟨some "R", some "S", .num 5, .num 6, some "loc"⟩).longitude = .num 6 ∧
    (fillFromText
        ⟨some "R", some "S", .num 5, .num 6, some "loc"⟩).geographic_location
      = some "loc" := by
  obtain ⟨h1, h2, h3⟩ := claim_C6_first_source_wins
    (fun _ => some ⟨.num 1, .num 2, some "g"⟩)
    (fun _ => some ⟨.num 1, .num 2, some "g"⟩) ["R"] ["S"]
    ⟨some "R", some "S", .num 5, .num 6, some "loc"⟩
  exact ⟨(h1 rfl).1, (h2 rfl).2.1, (h3 rfl).2.2⟩

/-- C7: the resolver is idempotent on resolved input: when every record
in the table already has present, valid coordinates,
`fill_and_filter_geo` returns the table unchanged (no lookup is queried,
since no row needs enrichment), and in general running it twice equals
running it once. -/
theorem claim_C7_idempotent (rl sl : String → Option Geo) (df : List Record) :
    ((∀ r ∈ df, _valid_lat_lon r.latitude r.longitude = true) →
        fill_and_filter_geo rl sl df = df) ∧
    fill_and_filter_geo rl sl (fill_and_filter_geo rl sl df) =
      fill_and_filter_geo rl sl df :=
  ⟨resolver_id rl sl df,
   resolver_id rl sl _ fun r hr => resolver_output_valid rl sl df r hr⟩

/-- Witness for C7 at a concrete already-resolved table. -/
theorem claim_C7_idempotent_witness :
    (∀ r ∈ [(⟨none, none, .num 10, .num 20, none⟩ : Record)],
        _valid_lat_lon r.latitude r.longitude = true) ∧
      fill_and_filter_geo (fun _ => none) (fun _ => none)
          [(⟨none, none, .num 10, .num 20, none⟩ : Record)]
        = [(⟨none, none, .num 10, .num 20, none⟩ : Record)] :=
  ⟨by decide,
   (claim_C7_idempotent (fun _ => none) (fun _ => none) _).1 (by decide)⟩

/-- C8: external lookup failure is non-fatal: both enrichment functions
return the concatenation of the successful chunks' rows (a raised
exception for a chunk is caught and contributes nothing), and when every
chunk fails they return the empty table (whose schema columns are the
fields of `RunRow` resp. `SampleRow`); they never raise to the caller. -/
theorem claim_C8_lookup_nonfatal
    (fetchR : List String → Except Unit (List RunRow))
    (fetchS : List String → Except Unit (List SampleRow))
    (runIds sampleIds : List (Option String)) (chunkSize : ℕ) :
    (enrich_coords_from_ena_by_runs fetchR runIds chunkSize =
        ((chunks chunkSize (cleanIds runIds)).filterMap
          fun c => (fetchR c).toOption).flatten) ∧
    ((∀ c ∈ chunks chunkSize (cleanIds runIds), fetchR c = .error ()) →
        enrich_coords_from_ena_by_runs fetchR runIds chunkSize = []) ∧
    (enrich_coords_from_ena_by_samples fetchS sampleIds chunkSize =
        ((chunks chunkSize (cleanIds sampleIds)).filterMap
          fun c => (fetchS c).toOption).flatten) ∧
    ((∀ c ∈ chunks chunkSize (cleanIds sampleIds), fetchS c = .error ()) →
        enrich_coords_from_ena_by_samples fetchS sampleIds chunkSize = []) := by
  refine ⟨flatten_recover fetchR (chunks chunkSize (cleanIds runIds)),
    fun h => ?_, flatten_recover fetchS (chunks chunkSize (cleanIds sampleIds)),
    fun h => ?_⟩
  · unfold enrich_coords_from_ena_by_runs
    rw [flatten_recover fetchR,
      List.filterMap_eq_nil_iff.mpr fun c hc => by rw [h c hc]; rfl]
    rfl
  · unfold enrich_coords_from_ena_by_samples
    rw [flatten_recover fetchS,
      List.filterMap_eq_nil_iff.mpr fun c hc => by rw [h c hc]; rfl]
    rfl

/-- Witness for C8: every chunk failing yields the empty table. -/
theorem claim_C8_lookup_nonfatal_witness :
    enrich_coords_from_ena_by_runs (fun _ => .error ())
        [some "A", none, some " ", some "B"] 1 = [] ∧
      enrich_coords_from_ena_by_samples (fun _ => .error ()) [some "X"] 200 = [] :=
  ⟨(claim_C8_lookup_nonfatal (fun _ => .error ()) (fun _ => .error ())
      [some "A", none, some " ", some "B"] [some "X"] 1).2.1 fun _ _ => rfl,
   (claim_C8_lookup_nonfatal (fun _ => .error ()) (fun _ => .error ())
      [some "A", none, some " ", some "B"] [some "X"] 200).2.2.2 fun _ _ => rfl⟩

/-- C9: `runCmd` performs at most `retries` attempts; it returns 0 after
the first attempt that exits 0, making no further attempts, and when no
attempt exits 0 it returns the exit code of the final attempt (the
Python default for `retries` is 3). -/
theorem claim_C9_retry (call : ℕ → ℤ) (retries : ℕ) :
    (runCmd call retries).2 ≤ retries ∧
    (∀ k, 1 ≤ k → k ≤ retries → call k = 0 →
        (∀ j, 1 ≤ j → j < k → call j ≠ 0) → runCmd call retries = (0, k)) ∧
    ((∀ j, 1 ≤ j → j ≤ retries → call j ≠ 0) → 1 ≤ retries →
        runCmd call retries = (call retries, retries)) := by
  refine ⟨?_, fun k h1 h2 hk hmin => ?_, fun hall h1 => ?_⟩
  · have h := (runCmdGo_count call retries 0 1).2
    simpa [runCmd] using h
  · exact runCmdGo_finds call retries 0 1 k (by omega) (by omega) hk
      fun j hj1 hj2 => hmin j (by omega) hj2
  · have h := runCmdGo_all_fail call retries 0 1 h1
      fun j hj1 hj2 => hall j (by omega) (by omega)
    simpa [runCmd] using h

/-- Witness for C9: second attempt succeeds out of three. -/
theorem claim_C9_retry_witness :
    (runCmd (fun i => if i = 2 then 0 else 1) 3).2 ≤ 3 ∧
      runCmd (fun i => if i = 2 then 0 else 1) 3 = (0, 2) :=
  ⟨(claim_C9_retry (fun i => if i = 2 then 0 else 1) 3).1,
   (claim_C9_retry (fun i => if i = 2 then 0 else 1) 3).2.1 2 (by omega) (by omega)
     (by decide) fun j hj1 hj2 => by
       have hj : j = 1 := by omega
       subst hj
       decide⟩

/-- C10 (implicit): the plain-number fallback branch never produces the
returned coordinates: because the hemisphere letter of the first
pattern is optional, both scans find the same numeric substrings, so
`_extract_lat_lon_from_text` always equals `_parse_ns_ew` alone. -/
theorem claim_C10_fallback_never_fires (s : Option String) :
    _extract_lat_lon_from_text s = _parse_ns_ew s :=
  extract_eq_parse s

end Magenta
